import Mathlib

/-!
# Verification of the hikari REST request core and interaction dispatcher

Shallow embedding of the behaviour documented and implemented in
`src/hikari/api/interaction_server.py`, `src/hikari/api/rest.py` and
`src/hikari/impl/rest_bot.py`.  Interaction types, listeners, callbacks,
message ids and error payloads are represented by natural-number tags;
Python dictionaries become association lists, Python exceptions become
`Except` / explicit error fields, and the mutable Python lists held by
`RESTBot` become cells of an explicit heap so that aliasing is visible.

The concrete `hikari/impl/interaction_server.py` and `hikari/impl/rest.py`
are not part of the sources; where a definition embeds behaviour of those
modules it is modelled from the specification and from the contracts
documented on the corresponding abstract methods, and says so in its doc
comment.
-/

namespace Hikari

/-! ## Interaction listener registry

The registry below follows the contract documented on
`InteractionServer.set_listener` (src/hikari/api/interaction_server.py,
lines 201-230): a non-`None` listener with `replace=False` raises `TypeError`
when a listener is already set, otherwise the listener is installed;
passing `None` unsets the previous listener. -/

/-- Errors that `set_listener` could raise.  `typeError` is what the
interface documents; `configurationError` is the spec's taxonomy name,
included so that statements about the error's identity can be expressed. -/
inductive ListenerError
  | typeError (msg : String)
  | configurationError (msg : String)
deriving DecidableEq

/-- The listener registry: an association list from interaction-type tag to
listener id, embedding the `_listeners` dictionary. -/
structure InteractionServerState where
  listeners : List (Nat × Nat)
deriving DecidableEq

/-- Embeds `InteractionServer.get_listener`: dictionary lookup by
interaction type. -/
def get_listener (st : InteractionServerState) (ty : Nat) : Option Nat :=
  st.listeners.lookup ty

/-- Stores `v` under key `k`, replacing any previous binding. -/
def setEntry (l : List (Nat × Nat)) (k v : Nat) : List (Nat × Nat) :=
  (k, v) :: l.filter (fun p => !(p.1 == k))

/-- Removes any binding for key `k`. -/
def removeEntry (l : List (Nat × Nat)) (k : Nat) : List (Nat × Nat) :=
  l.filter (fun p => !(p.1 == k))

/-- Modelled from the spec: `InteractionServer.set_listener`
(the implementation `hikari/impl/interaction_server.py` is absent from the
sources; this follows the contract documented on the abstract method in
src/hikari/api/interaction_server.py, which raises `TypeError` if `replace`
is false when a listener is already set, installs or replaces it otherwise,
and unsets the listener when `None` is passed). -/
def set_listener (st : InteractionServerState) (ty : Nat) (listener : Option Nat)
    (replace : Bool) : Except ListenerError InteractionServerState :=
  match listener with
  | some l =>
    if !replace && (get_listener st ty).isSome then
      .error (.typeError ("Listener already set for " ++ toString ty))
    else
      .ok ⟨setEntry st.listeners ty l⟩
  | none => .ok ⟨removeEntry st.listeners ty⟩

/-- `true` iff the call raised the spec's `ConfigurationError`. -/
def raisedConfigurationError (r : Except ListenerError InteractionServerState) : Bool :=
  match r with
  | .error (.configurationError _) => true
  | _ => false

/-! ## Interaction dispatcher

Modelled from the spec, section 4.5 (the implementation
`hikari/impl/interaction_server.py` is absent from the sources): a
registered listener is either a plain async callable or a one-shot-yield
async generator; the dispatcher turns a verified interaction into exactly
one HTTP response.  A listener's run is embedded by its observable outcome:
for a plain callable, the value it returned (or the exception it raised);
for a generator, the sequence of yields and throws it produces when driven.
Response-builder values are natural-number tags. -/

/-- The HTTP response produced for one interaction request. -/
inductive HttpResponse
  | ofBuilder (r : Nat)
  | noContent
  | internalError
deriving DecidableEq

/-- Status code the server responds with (spec: 204-equivalent no-content,
500-equivalent failure). -/
def HttpResponse.statusCode : HttpResponse → Nat
  | .ofBuilder _ => 200
  | .noContent => 204
  | .internalError => 500

/-- One observable event of a one-shot-yield (async generator) handler:
it yields a response builder (or `none`), or it throws. -/
inductive GenEvent
  | yields (r : Option Nat)
  | throws (e : Nat)
deriving DecidableEq

/-- A registered listener, by the outcome of running it on the interaction:
`direct` is a plain callable that raised or returned an optional response
builder; `streaming` is a one-shot-yield handler with its event sequence. -/
inductive Listener
  | direct (result : Except Nat (Option Nat))
  | streaming (events : List GenEvent)

/-- A failure that is only logged on the background channel: a handler
yielding again after its first yield, or throwing after its first yield. -/
inductive BackgroundFailure
  | extraYield (events : List GenEvent)
  | postYieldError (e : Nat)
deriving DecidableEq

/-- What one interaction dispatch produces: the single HTTP response, plus
the failures that were only logged on the background channel. -/
structure DispatchResult where
  response : HttpResponse
  backgroundFailures : List BackgroundFailure
deriving DecidableEq

/-- Response used for a yielded/returned optional builder: the builder if
one was produced, a no-content response otherwise. -/
def responseOf : Option Nat → HttpResponse
  | some r => .ofBuilder r
  | none => .noContent

/-- Modelled from the spec: what happens to a one-shot-yield handler after
its first yield — a second yield, or an exception thrown after the first
yield, is logged as a background failure and never touches the response. -/
def backgroundLog : List GenEvent → List BackgroundFailure
  | [] => []
  | .yields r :: rest => [.extraYield (.yields r :: rest)]
  | .throws e :: _ => [.postYieldError e]

/-- Modelled from the spec: driving a one-shot-yield handler — the first
yielded value becomes the HTTP response; an exception before any yield is a
dispatch failure (500-equivalent); everything after the first yield runs in
the background and can only be logged. -/
def runStreaming : List GenEvent → DispatchResult
  | [] => ⟨.internalError, []⟩
  | .yields r :: rest => ⟨responseOf r, backgroundLog rest⟩
  | .throws _ :: _ => ⟨.internalError, []⟩

/-- Modelled from the spec: dispatch of a plain callable listener — its
returned builder (or a no-content response if it returned nothing) becomes
the HTTP response; an exception is a dispatch failure (500-equivalent). -/
def runDirect : Except Nat (Option Nat) → DispatchResult
  | .ok r => ⟨responseOf r, []⟩
  | .error _ => ⟨.internalError, []⟩

/-- Modelled from the spec: the `DISPATCHING` step of section 4.5 — no
registered listener yields a no-content response; otherwise the listener is
run according to its shape. -/
def dispatch : Option Listener → DispatchResult
  | none => ⟨.noContent, []⟩
  | some (.direct result) => runDirect result
  | some (.streaming events) => runStreaming events

/-! ## Bulk message delete

`RESTClient.delete_messages` (src/hikari/api/rest.py, lines 1621-1676)
documents: at most 100 messages per underlying bulk call, executed
one-after-the-other; if one message is left over from chunking per 100, or
only one message is passed, the logic defers to `delete_message`; a partial
failure raises `BulkDeleteError` carrying the messages successfully deleted
and the messages that were not removed, with the originating error as the
exception's cause.  The implementation (`hikari/impl/rest.py`) is absent
from the sources, so the execution below is modelled from that documented
contract.  Message ids are natural numbers. -/

/-- One underlying call made by `delete_messages`: a bulk-delete request
with a chunk of ids, or a single `delete_message` request. -/
inductive DeleteCall
  | bulk (msgs : List Nat)
  | single (msg : Nat)
deriving DecidableEq

/-- The messages an underlying call would remove. -/
def DeleteCall.msgs : DeleteCall → List Nat
  | .bulk ms => ms
  | .single m => [m]

/-- Number of messages in one underlying call. -/
def DeleteCall.size (c : DeleteCall) : Nat := c.msgs.length

/-- Messages covered by a sequence of underlying calls, in order. -/
def callsMsgs : List DeleteCall → List Nat
  | [] => []
  | c :: cs => c.msgs ++ callsMsgs cs

/-- Modelled from the spec: the chunking plan of
`RESTClient.delete_messages` — chunks of 100 are bulk-deleted
one-after-the-other; a remainder of exactly one message (or a single
message passed in total) defers to `delete_message`. -/
def deleteCalls (msgs : List Nat) : List DeleteCall :=
  if msgs.length ≤ 100 then
    match msgs with
    | [] => []
    | [m] => [.single m]
    | _ :: _ :: _ => [.bulk msgs]
  else
    .bulk (msgs.take 100) :: deleteCalls (msgs.drop 100)
termination_by msgs.length
decreasing_by simp only [List.length_drop]; omega

/-- The exception `delete_messages` raises on partial failure, embedding
`hikari.errors.BulkDeleteError`: the messages successfully deleted, the
messages that were not removed, and the originating error as its cause. -/
structure BulkDeleteError where
  deleted : List Nat
  notRemoved : List Nat
  cause : Nat
deriving DecidableEq

/-- How an outcome reaches the caller: as the call's ordinary return value,
or as a raised exception. -/
inductive Delivery (ε α : Type)
  | value (a : α)
  | exception (e : ε)
deriving DecidableEq

/-- `true` iff the outcome was delivered by raising an exception. -/
def Delivery.isException {ε α : Type} : Delivery ε α → Bool
  | .value _ => false
  | .exception _ => true

/-- Modelled from the spec: executing the planned calls one-after-the-other
against an oracle giving each call's failure (if any); the first failing
call aborts the run and raises `BulkDeleteError` carrying the messages
already deleted and those not removed. -/
def runDeleteCalls (oracle : DeleteCall → Option Nat) :
    List DeleteCall → List Nat → Delivery BulkDeleteError Unit
  | [], _ => .value ()
  | c :: cs, deleted =>
    match oracle c with
    | none => runDeleteCalls oracle cs (deleted ++ c.msgs)
    | some err => .exception ⟨deleted, c.msgs ++ callsMsgs cs, err⟩

/-- Modelled from the spec: `RESTClient.delete_messages` — plan the chunked
calls, then execute them in order. -/
def delete_messages (oracle : DeleteCall → Option Nat) (msgs : List Nat) :
    Delivery BulkDeleteError Unit :=
  runDeleteCalls oracle (deleteCalls msgs) []

/-- A failure oracle under which the bulk call covering messages
`[1, 2, 3]` fails with error `7`. -/
def failingBulkOracle (c : DeleteCall) : Option Nat :=
  if c = .bulk [1, 2, 3] then some 7 else none

/-! ## Request executor

Modelled from the spec, section 4.3 (the implementation `hikari/impl/rest.py`
is absent from the sources): one logical request issues transport attempts
until a terminal outcome.  Network-level failures (connect/timeout) and 5xx
responses retry with exponential backoff, each drawing on the same
`max_retries` budget; a 429 waits the advertised `retry-after` and re-issues
without touching that budget, but the accumulated rate-limit waiting of one
logical call is bounded by the `max_rate_limit` wall-clock budget, beyond
which a rate-limit-too-long failure is raised
(`hikari.errors.RateLimitTooLongError`, the spec's `RateLimitExceeded`; see
src/hikari/impl/rest_bot.py lines 145-162 for both knobs).  The environment
is embedded as the list of outcomes the transport would produce for the
successive attempts; times are natural numbers. -/

/-- Outcome of one transport attempt: a network-level failure
(connect/timeout error), or an HTTP response with its status and — read
when the status is 429 — its `retry-after` value. -/
inductive Attempt
  | netFail
  | response (status : Nat) (retryAfter : Nat)
deriving DecidableEq

/-- An attempt outcome that the executor retries: a network failure or a
5xx response. -/
def Attempt.isTransient : Attempt → Bool
  | .netFail => true
  | .response s _ => 500 ≤ s

/-- The two retry knobs of `RESTBot.__init__`
(src/hikari/impl/rest_bot.py lines 283-284). -/
structure ExecConfig where
  maxRetries : Nat
  maxRateLimit : Nat
deriving DecidableEq

/-- Default of the `max_retries` parameter of `RESTBot.__init__`
(src/hikari/impl/rest_bot.py line 284). -/
def defaultMaxRetries : Nat := 3

/-- Exponential backoff schedule used before retry number `n`, shared by
network failures and 5xx responses (spec: Clock/Backoff). -/
def backoffDelay (n : Nat) : Nat := 2 ^ n

/-- Terminal outcome of one logical request. -/
inductive ExecResult
  | success (status : Nat)
  | clientError (status : Nat)
  | transportFailure
  | serverError (status : Nat)
  | rateLimitTooLong
  | outOfAttempts
deriving DecidableEq

/-- A terminal failure reached by exhausting the retry budget. -/
def ExecResult.isRetryExhaustion : ExecResult → Bool
  | .transportFailure => true
  | .serverError _ => true
  | _ => false

/-- What one logical request did: its terminal outcome, the waits it slept
(backoff and rate-limit waits, in order), and how many transport attempts
it made. -/
structure ExecTrace where
  result : ExecResult
  waits : List Nat
  attemptsUsed : Nat
deriving DecidableEq

/-- Modelled from the spec: the request loop of section 4.3 over the
remaining transport outcomes; `retries` counts retries already consumed
(network failures and 5xx both draw on it), `waited` the rate-limit waiting
already accumulated, `waits` the delays slept so far (reversed), `used` the
attempts made so far. -/
def executeAux (cfg : ExecConfig) :
    List Attempt → Nat → Nat → List Nat → Nat → ExecTrace
  | [], _, _, waits, used => ⟨.outOfAttempts, waits.reverse, used⟩
  | .netFail :: rest, retries, waited, waits, used =>
    if cfg.maxRetries ≤ retries then
      ⟨.transportFailure, waits.reverse, used + 1⟩
    else
      executeAux cfg rest (retries + 1) waited (backoffDelay retries :: waits) (used + 1)
  | .response s ra :: rest, retries, waited, waits, used =>
    if 200 ≤ s ∧ s < 300 then
      ⟨.success s, waits.reverse, used + 1⟩
    else if s = 429 then
      if cfg.maxRateLimit < waited + ra then
        ⟨.rateLimitTooLong, waits.reverse, used + 1⟩
      else
        executeAux cfg rest retries (waited + ra) (ra :: waits) (used + 1)
    else if 500 ≤ s then
      if cfg.maxRetries ≤ retries then
        ⟨.serverError s, waits.reverse, used + 1⟩
      else
        executeAux cfg rest (retries + 1) waited (backoffDelay retries :: waits) (used + 1)
    else
      ⟨.clientError s, waits.reverse, used + 1⟩

/-- Modelled from the spec: `execute` of section 4.3 — run one logical
request from a fresh retry counter and rate-limit budget. -/
def execute (cfg : ExecConfig) (attempts : List Attempt) : ExecTrace :=
  executeAux cfg attempts 0 0 [] 0

/-- A 429 response instructing a wait of `ra`. -/
def rateLimited (ra : Nat) : Attempt := .response 429 ra

/-! ## RESTBot lifecycle

Embeds `RESTBot` (src/hikari/impl/rest_bot.py): `_close_event` (an optional
asyncio event with a set-flag), `_is_closing`, and the two mutable callback
lists `_on_shutdown` and `_on_startup`.  The lists are Python list objects,
so they live in an explicit heap of cells addressed by reference; reading
the `on_shutdown` / `on_startup` property allocates a fresh cell holding a
copy (`self._on_shutdown.copy()`, lines 343-353).  Callbacks are
natural-number ids; a behaviour oracle says which callbacks raise.
Coroutines are linearized: each method is one atomic step recording the
ordered effects it performed. -/

/-- The heap of mutable Python list objects: cell `r` holds the list's
contents. -/
structure Heap where
  cells : List (List Nat)
deriving DecidableEq

/-- Contents of the list object at reference `r`. -/
def Heap.read (h : Heap) (r : Nat) : List Nat := (h.cells[r]?).getD []

/-- In-place mutation of the list object at reference `r`. -/
def Heap.write (h : Heap) (r : Nat) (v : List Nat) : Heap := ⟨h.cells.set r v⟩

/-- Allocation of a fresh list object. -/
def Heap.alloc (h : Heap) (v : List Nat) : Heap × Nat :=
  (⟨h.cells ++ [v]⟩, h.cells.length)

/-- Lifecycle-relevant state of a `RESTBot`. -/
structure BotState where
  closeEvent : Option Bool
  isClosing : Bool
  onShutdownRef : Nat
  onStartupRef : Nat
deriving DecidableEq

/-- Embeds `RESTBot.is_alive`: the bot is alive iff `_close_event` is not
`None` (line 336). -/
def BotState.is_alive (st : BotState) : Bool := st.closeEvent.isSome

/-- Errors the lifecycle methods raise. -/
inductive BotError
  | componentStateConflict (msg : String)
  | callbackError (e : Nat)
  | valueError
deriving DecidableEq

/-- Ordered observable effects of the lifecycle methods. -/
inductive BotAction
  | serverClose
  | runShutdownCallback (cb : Nat)
  | restClose
  | closeEventSet
  | joinWait
  | restStart
  | runStartupCallback (cb : Nat)
  | serverStart
deriving DecidableEq

/-- Awaits callbacks in registration order until one raises: the ids
invoked, in order, and the first raised error if any. -/
def runCallbacks (beh : Nat → Option Nat) : List Nat → List Nat × Option Nat
  | [] => ([], none)
  | c :: cs =>
    match beh c with
    | none =>
      let r := runCallbacks beh cs
      (c :: r.1, r.2)
    | some e => ([c], some e)

/-- Outcome of one lifecycle method: the bot state afterwards, the ordered
effects performed, and the exception propagated to the caller, if any. -/
structure LifecycleResult where
  state : BotState
  actions : List BotAction
  raised : Option BotError
deriving DecidableEq

/-- Embeds `RESTBot.close` (lines 442-467): inactive bots raise
`ComponentStateConflictError`; a close already in progress is awaited via
`join` and returns normally; otherwise the server is closed first, the
shutdown callbacks run in registration order, and the `finally` block
closes the REST client, sets the close event and resets the state before
any callback error propagates. -/
def close (h : Heap) (st : BotState) (beh : Nat → Option Nat) : LifecycleResult :=
  match st.closeEvent with
  | none => ⟨st, [], some (.componentStateConflict "Cannot close an inactive bot")⟩
  | some _ =>
    if st.isClosing then
      ⟨st, [.joinWait], none⟩
    else
      let r := runCallbacks beh (h.read st.onShutdownRef)
      ⟨{ st with closeEvent := none, isClosing := false },
        .serverClose :: (r.1.map .runShutdownCallback ++ [.restClose, .closeEventSet]),
        r.2.map .callbackError⟩

/-- Embeds `RESTBot.join` (lines 469-475): inactive bots raise
`ComponentStateConflictError`, otherwise the close event is awaited. -/
def join (st : BotState) : Except BotError Unit :=
  match st.closeEvent with
  | none => .error (.componentStateConflict "Cannot wait for an inactive bot to join")
  | some _ => .ok ()

/-- Embeds `RESTBot.start` (lines 632-712): an alive bot raises
`ComponentStateConflictError` before anything starts; otherwise the close
event is created, the REST client started, the startup callbacks awaited in
order — a raising callback closes the REST client again and re-raises —
and finally the interaction server is started.  The update-check task and
aiohttp server parameters carry no bot state and are elided. -/
def start (h : Heap) (st : BotState) (beh : Nat → Option Nat) : LifecycleResult :=
  if st.is_alive then
    ⟨st, [],
      some (.componentStateConflict "Cannot start an already active interaction server")⟩
  else
    let st1 : BotState := { st with isClosing := false, closeEvent := some false }
    let r := runCallbacks beh (h.read st.onStartupRef)
    match r.2 with
    | none => ⟨st1, .restStart :: (r.1.map .runStartupCallback ++ [.serverStart]), none⟩
    | some e =>
      ⟨st1, .restStart :: (r.1.map .runStartupCallback ++ [.restClose]),
        some (.callbackError e)⟩

/-- Embeds `RESTBot.run` (lines 481-630) linearized for one logical task:
the is-alive guard, then `start`, the `join` wait, and the `finally` block
which closes the bot while it is still alive (an exception raised by a
shutdown callback during that close supersedes the original one, as in a
Python `finally`).  The event-loop, signal-handling, executor-shutdown and
coroutine-tracking plumbing carries no bot state and is elided. -/
def run (h : Heap) (st : BotState) (beh : Nat → Option Nat) : LifecycleResult :=
  if st.is_alive then
    ⟨st, [], some (.componentStateConflict "Cannot start a bot that's already active")⟩
  else
    let s := start h st beh
    match s.raised with
    | some e =>
      let c := close h s.state beh
      ⟨c.state, s.actions ++ c.actions,
        match c.raised with
        | some ce => some ce
        | none => some e⟩
    | none =>
      let c := close h s.state beh
      ⟨c.state, s.actions ++ [.joinWait] ++ c.actions, c.raised⟩

/-- Embeds the `RESTBot.on_shutdown` property (lines 343-348): returns a
copy of the internal list — a freshly allocated list object with the same
contents. -/
def on_shutdown (h : Heap) (st : BotState) : Heap × Nat :=
  h.alloc (h.read st.onShutdownRef)

/-- Embeds the `RESTBot.on_startup` property (lines 350-353): returns a
copy of the internal list. -/
def on_startup (h : Heap) (st : BotState) : Heap × Nat :=
  h.alloc (h.read st.onStartupRef)

/-- Embeds `RESTBot.add_shutdown_callback` (lines 418-422): appends to the
internal list in place. -/
def add_shutdown_callback (h : Heap) (st : BotState) (cb : Nat) : Heap :=
  h.write st.onShutdownRef (h.read st.onShutdownRef ++ [cb])

/-- Embeds `RESTBot.remove_shutdown_callback` (lines 424-428):
`list.remove` deletes the first occurrence in place and raises `ValueError`
when absent. -/
def remove_shutdown_callback (h : Heap) (st : BotState) (cb : Nat) :
    Except BotError Heap :=
  if cb ∈ h.read st.onShutdownRef then
    .ok (h.write st.onShutdownRef ((h.read st.onShutdownRef).erase cb))
  else
    .error .valueError

/-- Embeds `RESTBot.add_startup_callback` (lines 430-434). -/
def add_startup_callback (h : Heap) (st : BotState) (cb : Nat) : Heap :=
  h.write st.onStartupRef (h.read st.onStartupRef ++ [cb])

/-- Embeds `RESTBot.remove_startup_callback` (lines 436-440). -/
def remove_startup_callback (h : Heap) (st : BotState) (cb : Nat) :
    Except BotError Heap :=
  if cb ∈ h.read st.onStartupRef then
    .ok (h.write st.onStartupRef ((h.read st.onStartupRef).erase cb))
  else
    .error .valueError

/-- One registration mutation on the bot. -/
inductive RegOp
  | addShutdown (cb : Nat)
  | removeShutdown (cb : Nat)
  | addStartup (cb : Nat)
  | removeStartup (cb : Nat)
deriving DecidableEq

/-- Applies a sequence of add/remove operations; `none` when a remove of an
absent callback raises. -/
def applyOps (st : BotState) : Heap → List RegOp → Option Heap
  | h, [] => some h
  | h, .addShutdown cb :: ops => applyOps st (add_shutdown_callback h st cb) ops
  | h, .removeShutdown cb :: ops =>
    match remove_shutdown_callback h st cb with
    | .ok h2 => applyOps st h2 ops
    | .error _ => none
  | h, .addStartup cb :: ops => applyOps st (add_startup_callback h st cb) ops
  | h, .removeStartup cb :: ops =>
    match remove_startup_callback h st cb with
    | .ok h2 => applyOps st h2 ops
    | .error _ => none

/-- A callback behaviour under which no callback raises. -/
def okBeh : Nat → Option Nat := fun _ => none

/-- A callback behaviour under which callback `11` raises error `5`. -/
def failBeh : Nat → Option Nat := fun c => if c = 11 then some 5 else none

end Hikari

namespace Hikari

/-! ## Helper lemmas -/

/-- Chunking bound: every underlying call removes at most 100 messages. -/
lemma deleteCalls_size_le (msgs : List Nat) :
    ∀ c ∈ deleteCalls msgs, c.size ≤ 100 := by
  induction msgs using deleteCalls.induct with
  | case1 _ => intro c hc; simp [deleteCalls] at hc
  | case2 m h =>
    intro c hc
    rw [deleteCalls, if_pos h] at hc
    simp at hc
    simp [hc, DeleteCall.size, DeleteCall.msgs]
  | case3 a b tl h =>
    intro c hc
    rw [deleteCalls, if_pos h] at hc
    simp at hc
    simp only [hc, DeleteCall.size, DeleteCall.msgs]
    simpa using h
  | case4 x h ih =>
    intro c hc
    rw [deleteCalls.eq_def, if_neg h] at hc
    rcases List.mem_cons.mp hc with hc | hc
    · subst hc
      simp [DeleteCall.size, DeleteCall.msgs]
    · exact ih c hc

/-- Partition: the planned calls cover exactly the input messages, in
order. -/
lemma deleteCalls_partition (msgs : List Nat) :
    callsMsgs (deleteCalls msgs) = msgs := by
  induction msgs using deleteCalls.induct with
  | case1 _ => simp [deleteCalls, callsMsgs]
  | case2 m h =>
    rw [deleteCalls, if_pos h]
    simp [callsMsgs, DeleteCall.msgs]
  | case3 a b tl h =>
    rw [deleteCalls, if_pos h]
    simp [callsMsgs, DeleteCall.msgs]
  | case4 x h ih =>
    rw [deleteCalls.eq_def, if_neg h]
    simp [callsMsgs, DeleteCall.msgs, ih]

/-- When exactly one message is left over after chunking by 100 (which
includes a single message passed in total), the plan ends with a
`delete_message` call. -/
lemma deleteCalls_leftover_single (msgs : List Nat) (h : msgs.length % 100 = 1) :
    ∃ init m, deleteCalls msgs = init ++ [DeleteCall.single m] := by
  induction msgs using deleteCalls.induct with
  | case1 _ => simp at h
  | case2 m hle =>
    refine ⟨[], m, ?_⟩
    rw [deleteCalls, if_pos hle]
    simp
  | case3 a b tl hle =>
    exfalso
    have hlen : (a :: b :: tl).length = tl.length + 2 := by simp
    rw [hlen] at h
    simp at hle
    omega
  | case4 x hgt ih =>
    have hlen : (List.drop 100 x).length % 100 = 1 := by
      simp only [List.length_drop]
      omega
    obtain ⟨init, m, hm⟩ := ih hlen
    refine ⟨DeleteCall.bulk (x.take 100) :: init, m, ?_⟩
    rw [deleteCalls.eq_def, if_neg hgt, hm]
    rfl

/-- The plan for the three messages `[1, 2, 3]` is one bulk call. -/
lemma deleteCalls_oneTwoThree : deleteCalls [1, 2, 3] = [DeleteCall.bulk [1, 2, 3]] := by
  rw [deleteCalls, if_pos (by simp)]

/-- Evaluation of the failing bulk delete of `[1, 2, 3]`. -/
lemma delete_messages_failingBulk_eval :
    delete_messages failingBulkOracle [1, 2, 3]
      = .exception ⟨[], [1, 2, 3], 7⟩ := by
  rw [delete_messages, deleteCalls_oneTwoThree]
  rfl

/-- On an exception, the carried partition covers exactly the planned
messages: deleted before the failure, not removed from it onwards. -/
lemma runDeleteCalls_exception_partition (oracle : DeleteCall → Option Nat) :
    ∀ (cs : List DeleteCall) (done : List Nat) (e : BulkDeleteError),
      runDeleteCalls oracle cs done = .exception e →
      e.deleted ++ e.notRemoved = done ++ callsMsgs cs := by
  intro cs
  induction cs with
  | nil => intro done e he; simp [runDeleteCalls] at he
  | cons c cs ih =>
    intro done e he
    rw [runDeleteCalls] at he
    cases horacle : oracle c with
    | none =>
      rw [horacle] at he
      have := ih (done ++ c.msgs) e he
      simpa [callsMsgs, List.append_assoc] using this
    | some err =>
      rw [horacle] at he
      cases he
      simp [callsMsgs, List.append_assoc]

/-- Shifting a backoff schedule: the delay slept before the first retry,
followed by the schedule started one retry later, is the schedule started
now. -/
lemma backoff_range_shift (retries k : Nat) :
    backoffDelay retries :: (List.range k).map (fun i => backoffDelay (retries + 1 + i))
      = (List.range (k + 1)).map (fun i => backoffDelay (retries + i)) := by
  rw [List.range_succ_eq_map]
  simp only [List.map_cons, List.map_map, Nat.add_zero]
  congr 1
  refine (List.map_congr_left fun i _ => ?_).symm
  simp only [Function.comp]
  congr 1
  omega

/-- A transient-only attempt prefix that exhausts the retry budget ends in
a retry-exhaustion failure, consuming one attempt per element and sleeping
the shared exponential backoff schedule, whatever mix of network failures
and 5xx responses it contains. -/
lemma executeAux_transient_exhausts (cfg : ExecConfig) :
    ∀ (l rest : List Attempt) (retries waited : Nat) (waits : List Nat) (used : Nat),
      l ≠ [] → (∀ a ∈ l, a.isTransient = true) →
      retries + l.length = cfg.maxRetries + 1 →
      (executeAux cfg (l ++ rest) retries waited waits used).result.isRetryExhaustion = true
      ∧ (executeAux cfg (l ++ rest) retries waited waits used).attemptsUsed = used + l.length
      ∧ (executeAux cfg (l ++ rest) retries waited waits used).waits
          = waits.reverse ++ (List.range (l.length - 1)).map (fun i => backoffDelay (retries + i)) := by
  intro l
  induction l with
  | nil => intro rest retries waited waits used hne _ _; exact absurd rfl hne
  | cons a l2 ih =>
    intro rest retries waited waits used _ htr hlen
    have hta : a.isTransient = true := htr a (by simp)
    cases l2 with
    | nil =>
      have hret : cfg.maxRetries ≤ retries := by simp at hlen; omega
      cases a with
      | netFail =>
        simp only [List.cons_append, List.nil_append, executeAux, if_pos hret]
        refine ⟨rfl, by simp, by simp⟩
      | response s ra =>
        have h500 : 500 ≤ s := by simpa [Attempt.isTransient] using hta
        have h2xx : ¬ (200 ≤ s ∧ s < 300) := by omega
        have h429 : ¬ (s = 429) := by omega
        simp only [List.cons_append, List.nil_append, executeAux,
          if_neg h2xx, if_neg h429, if_pos h500, if_pos hret]
        refine ⟨rfl, by simp, by simp⟩
    | cons b l3 =>
      have hret : ¬ (cfg.maxRetries ≤ retries) := by simp at hlen; omega
      have hlen2 : (retries + 1) + (b :: l3).length = cfg.maxRetries + 1 := by
        simp at hlen ⊢; omega
      have htr2 : ∀ x ∈ b :: l3, x.isTransient = true := fun x hx => htr x (by simp [hx])
      have step : executeAux cfg ((a :: b :: l3) ++ rest) retries waited waits used
          = executeAux cfg ((b :: l3) ++ rest) (retries + 1) waited
              (backoffDelay retries :: waits) (used + 1) := by
        cases a with
        | netFail =>
          simp only [List.cons_append, executeAux, if_neg hret]
          rfl
        | response s ra =>
          have h500 : 500 ≤ s := by simpa [Attempt.isTransient] using hta
          have h2xx : ¬ (200 ≤ s ∧ s < 300) := by omega
          have h429 : ¬ (s = 429) := by omega
          simp only [List.cons_append, executeAux,
            if_neg h2xx, if_neg h429, if_pos h500, if_neg hret]
          rfl
      obtain ⟨ih1, ih2, ih3⟩ := ih rest (retries + 1) waited
        (backoffDelay retries :: waits) (used + 1) (by simp) htr2 hlen2
      rw [step]
      refine ⟨ih1, by rw [ih2]; simp; omega, ?_⟩
      rw [ih3]
      simp only [List.length_cons, Nat.add_sub_cancel, List.reverse_cons,
        List.append_assoc, List.singleton_append]
      rw [backoff_range_shift]

/-- Exhausting the retry budget on network failures alone surfaces the
terminal transport failure. -/
lemma executeAux_netFail_exhausts (cfg : ExecConfig) :
    ∀ (n : Nat) (rest : List Attempt) (retries waited : Nat) (waits : List Nat) (used : Nat),
      1 ≤ n → retries + n = cfg.maxRetries + 1 →
      (executeAux cfg (List.replicate n .netFail ++ rest) retries waited waits used).result
        = .transportFailure := by
  intro n
  induction n with
  | zero => intro _ _ _ _ _ h _; omega
  | succ k ih =>
    intro rest retries waited waits used _ hlen
    cases k with
    | zero =>
      have hret : cfg.maxRetries ≤ retries := by omega
      simp only [List.replicate, List.cons_append, List.nil_append, executeAux, if_pos hret]
    | succ k2 =>
      have hret : ¬ (cfg.maxRetries ≤ retries) := by omega
      simp only [List.replicate, List.cons_append, executeAux, if_neg hret]
      exact ih rest (retries + 1) waited (backoffDelay retries :: waits) (used + 1)
        (by omega) (by omega)

/-- A chain of 429 responses whose waits stay within the remaining
rate-limit budget is waited out and re-issued, leaving the retry counter
untouched. -/
lemma executeAux_429_chain (cfg : ExecConfig) :
    ∀ (ras : List Nat) (rest : List Attempt) (retries waited : Nat)
      (waits : List Nat) (used : Nat),
      waited + ras.sum ≤ cfg.maxRateLimit →
      executeAux cfg (ras.map rateLimited ++ rest) retries waited waits used
        = executeAux cfg rest retries (waited + ras.sum) (ras.reverse ++ waits)
            (used + ras.length) := by
  intro ras
  induction ras with
  | nil => intro rest retries waited waits used _; simp
  | cons ra ras ih =>
    intro rest retries waited waits used hbudget
    have hsum : waited + (ra :: ras).sum = (waited + ra) + ras.sum := by
      simp; omega
    have h2xx : ¬ ((200 : Nat) ≤ 429 ∧ (429 : Nat) < 300) := by omega
    have hwait : ¬ (cfg.maxRateLimit < waited + ra) := by
      simp at hbudget; omega
    have step : executeAux cfg ((ra :: ras).map rateLimited ++ rest) retries waited waits used
        = executeAux cfg (ras.map rateLimited ++ rest) retries (waited + ra)
            (ra :: waits) (used + 1) := by
      simp only [List.map_cons, List.cons_append, rateLimited, executeAux,
        if_neg h2xx, if_pos rfl, if_neg hwait]
      rfl
    rw [step, ih rest retries (waited + ra) (ra :: waits) (used + 1)
      (by rw [hsum] at hbudget; omega)]
    congr 1 <;> simp <;> omega

/-- When no callback raises, they all run in registration order. -/
lemma runCallbacks_all_ok (beh : Nat → Option Nat) :
    ∀ cs : List Nat, (∀ c ∈ cs, beh c = none) → runCallbacks beh cs = (cs, none) := by
  intro cs
  induction cs with
  | nil => intro _; rfl
  | cons c cs ih =>
    intro hok
    have hc : beh c = none := hok c (by simp)
    simp [runCallbacks, hc, ih fun x hx => hok x (by simp [hx])]

/-- Writing one list object leaves every other object unchanged. -/
lemma Heap.read_write_ne (h : Heap) (r1 r2 : Nat) (v : List Nat) (hne : r1 ≠ r2) :
    (h.write r1 v).read r2 = h.read r2 := by
  simp only [Heap.read, Heap.write]
  rw [List.getElem?_set_ne hne]

/-- Writing a list object does not change the number of allocated objects. -/
lemma Heap.length_write (h : Heap) (r : Nat) (v : List Nat) :
    (h.write r v).cells.length = h.cells.length := by
  simp [Heap.write]

/-- Allocation leaves existing objects unchanged. -/
lemma Heap.read_alloc_old (h : Heap) (v : List Nat) (r : Nat) (hr : r < h.cells.length) :
    (h.alloc v).1.read r = h.read r := by
  simp only [Heap.alloc, Heap.read]
  rw [List.getElem?_append, if_pos hr]

/-- The freshly allocated object holds the allocated contents. -/
lemma Heap.read_alloc_new (h : Heap) (v : List Nat) :
    (h.alloc v).1.read (h.alloc v).2 = v := by
  simp [Heap.alloc, Heap.read]

/-- Registration operations only write list objects, so they preserve the
number of allocated objects. -/
lemma applyOps_length (st : BotState) :
    ∀ (ops : List RegOp) (h h1 : Heap), applyOps st h ops = some h1 →
      h1.cells.length = h.cells.length := by
  intro ops
  induction ops with
  | nil =>
    intro h h1 hap
    simp [applyOps] at hap
    rw [← hap]
  | cons op ops ih =>
    intro h h1 hap
    cases op with
    | addShutdown cb =>
      rw [applyOps] at hap
      rw [ih _ _ hap, add_shutdown_callback, Heap.length_write]
    | removeShutdown cb =>
      rw [applyOps] at hap
      by_cases hmem : cb ∈ h.read st.onShutdownRef
      · rw [remove_shutdown_callback, if_pos hmem] at hap
        rw [ih _ _ hap, Heap.length_write]
      · rw [remove_shutdown_callback, if_neg hmem] at hap
        simp at hap
    | addStartup cb =>
      rw [applyOps] at hap
      rw [ih _ _ hap, add_startup_callback, Heap.length_write]
    | removeStartup cb =>
      rw [applyOps] at hap
      by_cases hmem : cb ∈ h.read st.onStartupRef
      · rw [remove_startup_callback, if_pos hmem] at hap
        rw [ih _ _ hap, Heap.length_write]
      · rw [remove_startup_callback, if_neg hmem] at hap
        simp at hap

/-- `close` consults the heap only through the internal `_on_shutdown`
object. -/
lemma close_heap_congr (h h2 : Heap) (st : BotState) (beh : Nat → Option Nat)
    (hread : h.read st.onShutdownRef = h2.read st.onShutdownRef) :
    close h st beh = close h2 st beh := by
  unfold close
  rw [hread]

/-- `start` consults the heap only through the internal `_on_startup`
object. -/
lemma start_heap_congr (h h2 : Heap) (st : BotState) (beh : Nat → Option Nat)
    (hread : h.read st.onStartupRef = h2.read st.onStartupRef) :
    start h st beh = start h2 st beh := by
  unfold start
  rw [hread]

/-! ## Claim theorems -/

/-- C1 counterexample: with listener `7` registered for interaction type `2`,
`set_listener` with a non-`None` listener and `replace=False` raises
`TypeError` (as the interface documents), not the `ConfigurationError` the
claim names. -/
theorem set_listener_occupied_raises_typeError_not_configurationError :
    set_listener ⟨[(2, 7)]⟩ 2 (some 9) false
      = .error (.typeError "Listener already set for 2")
    ∧ raisedConfigurationError (set_listener ⟨[(2, 7)]⟩ 2 (some 9) false) = false := by
  constructor <;> rfl

/-- C1 (amended): for every interaction type that already has a listener
registered, `set_listener` with a non-`None` listener and `replace=False`
fails with a `TypeError` (a programmer error that fails fast) and produces no
new state, so the previously installed listener remains installed and fully
functional; with `replace=True` the new listener is installed in its place. -/
theorem set_listener_replace_contract (st : InteractionServerState) (ty l0 lNew : Nat)
    (h : get_listener st ty = some l0) :
    set_listener st ty (some lNew) false
        = .error (.typeError ("Listener already set for " ++ toString ty))
    ∧ get_listener st ty = some l0
    ∧ ∃ st2, set_listener st ty (some lNew) true = .ok st2
        ∧ get_listener st2 ty = some lNew := by
  refine ⟨?_, h, ⟨⟨setEntry st.listeners ty lNew⟩, ?_, ?_⟩⟩
  · simp [set_listener, h]
  · simp [set_listener]
  · simp [get_listener, setEntry, List.lookup]

/-- Witness for `set_listener_replace_contract` at a concrete registry. -/
theorem set_listener_replace_contract_witness :
    get_listener ⟨[(2, 7)]⟩ 2 = some 7
    ∧ (set_listener ⟨[(2, 7)]⟩ 2 (some 9) false
        = .error (.typeError ("Listener already set for " ++ toString 2))
      ∧ get_listener ⟨[(2, 7)]⟩ 2 = some 7
      ∧ ∃ st2, set_listener ⟨[(2, 7)]⟩ 2 (some 9) true = .ok st2
          ∧ get_listener st2 2 = some 9) :=
  ⟨by decide, set_listener_replace_contract ⟨[(2, 7)]⟩ 2 7 9 (by decide)⟩

/-- C6: a one-shot-yield handler that yields builder `v` first gets exactly
`v` as the HTTP response, whatever its event sequence does afterwards; the
suffix after the first yield reaches only the background-failure log. -/
theorem streaming_first_yield_fixes_response (v : Nat) (rest : List GenEvent) :
    (dispatch (some (.streaming (.yields (some v) :: rest)))).response
        = .ofBuilder v
    ∧ (dispatch (some (.streaming (.yields (some v) :: rest)))).backgroundFailures
        = backgroundLog rest := by
  constructor <;> rfl

/-- C7: a plain callable listener's returned builder becomes the HTTP
response, and a listener that returns nothing produces a 204-equivalent
no-content response. -/
theorem direct_listener_response (r : Nat) :
    dispatch (some (.direct (.ok (some r)))) = ⟨.ofBuilder r, []⟩
    ∧ dispatch (some (.direct (.ok none))) = ⟨.noContent, []⟩
    ∧ (dispatch (some (.direct (.ok none)))).response.statusCode = 204 := by
  refine ⟨rfl, rfl, rfl⟩

/-- C2 counterexample: on a partial bulk-delete failure the outcome reaching
the caller is a raised `BulkDeleteError` exception, not an ordinary result
value — here deleting `[1, 2, 3]` under an oracle that fails the bulk call. -/
theorem delete_messages_partial_failure_is_exception :
    (delete_messages failingBulkOracle [1, 2, 3]).isException = true
    ∧ delete_messages failingBulkOracle [1, 2, 3]
        = .exception ⟨[], [1, 2, 3], 7⟩ := by
  refine ⟨?_, delete_messages_failingBulk_eval⟩
  rw [delete_messages_failingBulk_eval]
  rfl

/-- C2 (amended): when a bulk delete fails partway through, the caller
receives a `BulkDeleteError` exception that itself carries both the
successfully deleted sub-items and the sub-items that were not removed —
together they partition the input — so the cause chain need not be unwound
to recover that information. -/
theorem delete_messages_failure_carries_partition
    (oracle : DeleteCall → Option Nat) (msgs : List Nat) (e : BulkDeleteError)
    (h : delete_messages oracle msgs = .exception e) :
    (delete_messages oracle msgs).isException = true
    ∧ e.deleted ++ e.notRemoved = msgs := by
  constructor
  · rw [h]; rfl
  · have := runDeleteCalls_exception_partition oracle (deleteCalls msgs) [] e h
    simpa [deleteCalls_partition] using this

/-- Witness for `delete_messages_failure_carries_partition` at a failing
bulk delete of `[1, 2, 3]`. -/
theorem delete_messages_failure_carries_partition_witness :
    delete_messages failingBulkOracle [1, 2, 3]
        = .exception ⟨[], [1, 2, 3], 7⟩
    ∧ ((delete_messages failingBulkOracle [1, 2, 3]).isException = true
      ∧ ([] : List Nat) ++ [1, 2, 3] = [1, 2, 3]) :=
  ⟨delete_messages_failingBulk_eval,
    delete_messages_failure_carries_partition failingBulkOracle [1, 2, 3]
      ⟨[], [1, 2, 3], 7⟩ delete_messages_failingBulk_eval⟩

/-- C3: `delete_messages` partitions the input into underlying calls of at
most 100 messages each that together cover exactly the input, and when
exactly one message is left over after chunking by 100 — including the case
of a single message passed in total — the remainder goes through the
single-message `delete_message` call path. -/
theorem delete_messages_chunking_contract (msgs : List Nat) :
    (∀ c ∈ deleteCalls msgs, c.size ≤ 100)
    ∧ callsMsgs (deleteCalls msgs) = msgs
    ∧ (msgs.length % 100 = 1 →
        ∃ init m, deleteCalls msgs = init ++ [DeleteCall.single m])
    ∧ (∀ m, deleteCalls [m] = [DeleteCall.single m]) := by
  refine ⟨deleteCalls_size_le msgs, deleteCalls_partition msgs,
    deleteCalls_leftover_single msgs, fun m => ?_⟩
  rw [deleteCalls, if_pos (by simp)]

/-- C4: network-level failures and 5xx responses are retried under the same
exponential backoff policy, each attempt drawing on the one `max_retries`
budget, whatever mix of the two kinds occurs; exhausting the retries on
network failures surfaces the terminal transport failure (5xx exhaustion
surfaces the server error); `max_retries` defaults to 3. -/
theorem transient_retry_policy :
    defaultMaxRetries = 3
    ∧ (∀ (cfg : ExecConfig) (l rest : List Attempt),
        (∀ a ∈ l, a.isTransient = true) → l.length = cfg.maxRetries + 1 →
        (execute cfg (l ++ rest)).result.isRetryExhaustion = true
        ∧ (execute cfg (l ++ rest)).attemptsUsed = cfg.maxRetries + 1
        ∧ (execute cfg (l ++ rest)).waits
            = (List.range cfg.maxRetries).map backoffDelay)
    ∧ (∀ (cfg : ExecConfig) (n : Nat) (rest : List Attempt),
        n = cfg.maxRetries + 1 →
        (execute cfg (List.replicate n .netFail ++ rest)).result = .transportFailure) := by
  refine ⟨rfl, ?_, ?_⟩
  · intro cfg l rest htr hlen
    have hne : l ≠ [] := by intro h; rw [h] at hlen; simp at hlen
    obtain ⟨h1, h2, h3⟩ := executeAux_transient_exhausts cfg l rest 0 0 [] 0 hne htr
      (by omega)
    refine ⟨h1, by rw [execute, h2]; omega, ?_⟩
    rw [execute, h3, hlen]
    simp only [Nat.add_sub_cancel, List.reverse_nil, List.nil_append]
    exact List.map_congr_left fun i _ => by simp
  · intro cfg n rest hn
    exact executeAux_netFail_exhausts cfg n rest 0 0 [] 0 (by omega) (by omega)

/-- Witness for `transient_retry_policy`: four transient outcomes (a mix of
network failures and 5xx) against `max_retries = 3`. -/
theorem transient_retry_policy_witness :
    (∀ a ∈ [Attempt.netFail, .response 500 0, .netFail, .response 503 0],
        a.isTransient = true)
    ∧ [Attempt.netFail, .response 500 0, .netFail, .response 503 0].length = 3 + 1
    ∧ ((execute ⟨3, 300⟩
          ([Attempt.netFail, .response 500 0, .netFail, .response 503 0] ++ [])).result.isRetryExhaustion = true
      ∧ (execute ⟨3, 300⟩
          ([Attempt.netFail, .response 500 0, .netFail, .response 503 0] ++ [])).attemptsUsed = 3 + 1
      ∧ (execute ⟨3, 300⟩
          ([Attempt.netFail, .response 500 0, .netFail, .response 503 0] ++ [])).waits
          = (List.range 3).map backoffDelay)
    ∧ (4 = 3 + 1
      ∧ (execute ⟨3, 300⟩ (List.replicate 4 .netFail ++ [])).result = .transportFailure) :=
  ⟨by decide, by decide,
    transient_retry_policy.2.1 ⟨3, 300⟩
      [Attempt.netFail, .response 500 0, .netFail, .response 503 0] [] (by decide) (by decide),
    by decide,
    transient_retry_policy.2.2 ⟨3, 300⟩ 4 [] (by decide)⟩

/-- C5: 429-driven waiting and re-issuing draws nothing from `max_retries`
— any number of in-budget 429s is waited out and the request still
succeeds, for every `max_retries` including 0 — but the accumulated
rate-limit waiting of one logical call is bounded by `max_rate_limit`: a
429 whose wait would push the total over that budget surfaces the
rate-limit-too-long failure instead of waiting further. -/
theorem rate_limit_wait_policy :
    (∀ (cfg : ExecConfig) (ras : List Nat) (rest : List Attempt),
        ras.sum ≤ cfg.maxRateLimit →
        execute cfg (ras.map rateLimited ++ .response 200 0 :: rest)
          = ⟨.success 200, ras, ras.length + 1⟩)
    ∧ (∀ (cfg : ExecConfig) (ras : List Nat) (ra : Nat) (rest : List Attempt),
        ras.sum ≤ cfg.maxRateLimit → cfg.maxRateLimit < ras.sum + ra →
        (execute cfg (ras.map rateLimited ++ rateLimited ra :: rest)).result
          = .rateLimitTooLong) := by
  constructor
  · intro cfg ras rest hbudget
    rw [execute, executeAux_429_chain cfg ras (.response 200 0 :: rest) 0 0 [] 0
      (by omega)]
    simp [executeAux]
  · intro cfg ras ra rest hbudget hover
    rw [execute, executeAux_429_chain cfg ras (rateLimited ra :: rest) 0 0 [] 0
      (by omega)]
    have h2xx : ¬ ((200 : Nat) ≤ 429 ∧ (429 : Nat) < 300) := by omega
    have hwait : cfg.maxRateLimit < (0 + ras.sum) + ra := by omega
    simp only [rateLimited, executeAux, if_neg h2xx, if_pos rfl, if_pos hwait]
    simp

/-- Witness for `rate_limit_wait_policy`: two in-budget 429s succeed even
with `max_retries = 0`; a third wait overshooting the budget surfaces the
rate-limit-too-long failure. -/
theorem rate_limit_wait_policy_witness :
    ([4, 5].sum ≤ (10 : Nat)
      ∧ execute ⟨0, 10⟩ ([4, 5].map rateLimited ++ .response 200 0 :: [])
          = ⟨.success 200, [4, 5], [4, 5].length + 1⟩)
    ∧ ([4, 5].sum ≤ (10 : Nat) ∧ (10 : Nat) < [4, 5].sum + 7
      ∧ (execute ⟨0, 10⟩ ([4, 5].map rateLimited ++ rateLimited 7 :: [])).result
          = .rateLimitTooLong) :=
  ⟨⟨by decide, rate_limit_wait_policy.1 ⟨0, 10⟩ [4, 5] [] (by decide)⟩,
    by decide, by decide,
    rate_limit_wait_policy.2 ⟨0, 10⟩ [4, 5] 7 [] (by decide) (by decide)⟩

/-- C8: `close` on an active, not-already-closing bot closes the
interaction server first, then runs the registered shutdown callbacks in
registration order (all of them when none raises), and — raising callback
or not — still closes the REST client, sets the close event and resets the
bot to not-alive, not-closing before the callback's error propagates. -/
theorem close_active_sequence (h : Heap) (st : BotState) (beh : Nat → Option Nat)
    (b : Bool) (halive : st.closeEvent = some b) (hnc : st.isClosing = false) :
    (close h st beh).actions
        = .serverClose ::
            ((runCallbacks beh (h.read st.onShutdownRef)).1.map BotAction.runShutdownCallback
              ++ [.restClose, .closeEventSet])
    ∧ (close h st beh).state = { st with closeEvent := none, isClosing := false }
    ∧ (close h st beh).raised
        = (runCallbacks beh (h.read st.onShutdownRef)).2.map BotError.callbackError
    ∧ ((∀ c ∈ h.read st.onShutdownRef, beh c = none) →
        (runCallbacks beh (h.read st.onShutdownRef)).1 = h.read st.onShutdownRef
        ∧ (close h st beh).raised = none) := by
  have hc : close h st beh
      = ⟨{ st with closeEvent := none, isClosing := false },
          .serverClose ::
            ((runCallbacks beh (h.read st.onShutdownRef)).1.map .runShutdownCallback
              ++ [.restClose, .closeEventSet]),
          (runCallbacks beh (h.read st.onShutdownRef)).2.map .callbackError⟩ := by
    unfold close
    rw [halive]
    simp [hnc]
  refine ⟨by rw [hc], by rw [hc], by rw [hc], fun hok => ?_⟩
  rw [hc, runCallbacks_all_ok beh _ hok]
  exact ⟨rfl, rfl⟩

/-- Witness for `close_active_sequence`: an active bot whose shutdown list
holds callbacks `10` and `11`, where `11` raises — the REST client close,
event set and state reset still happen before error `5` propagates. -/
theorem close_active_sequence_witness :
    (⟨some false, false, 0, 1⟩ : BotState).closeEvent = some false
    ∧ (⟨some false, false, 0, 1⟩ : BotState).isClosing = false
    ∧ ((close ⟨[[10, 11], [20]]⟩ ⟨some false, false, 0, 1⟩ failBeh).actions
        = .serverClose ::
            ((runCallbacks failBeh (Heap.read ⟨[[10, 11], [20]]⟩ 0)).1.map
                BotAction.runShutdownCallback
              ++ [.restClose, .closeEventSet])
      ∧ (close ⟨[[10, 11], [20]]⟩ ⟨some false, false, 0, 1⟩ failBeh).state
          = ⟨none, false, 0, 1⟩
      ∧ (close ⟨[[10, 11], [20]]⟩ ⟨some false, false, 0, 1⟩ failBeh).raised
          = (runCallbacks failBeh (Heap.read ⟨[[10, 11], [20]]⟩ 0)).2.map
              BotError.callbackError
      ∧ ((∀ c ∈ Heap.read ⟨[[10, 11], [20]]⟩ 0, failBeh c = none) →
          (runCallbacks failBeh (Heap.read ⟨[[10, 11], [20]]⟩ 0)).1
              = Heap.read ⟨[[10, 11], [20]]⟩ 0
          ∧ (close ⟨[[10, 11], [20]]⟩ ⟨some false, false, 0, 1⟩ failBeh).raised = none)) :=
  ⟨rfl, rfl,
    close_active_sequence ⟨[[10, 11], [20]]⟩ ⟨some false, false, 0, 1⟩ failBeh false
      rfl rfl⟩

/-- C9: the lifecycle state guards — `close` and `join` on a not-alive bot
raise `ComponentStateConflictError` with no side effects; `run` and `start`
on an alive bot raise `ComponentStateConflictError` without starting
anything; `close` while a close is already in progress waits for it and
returns normally. -/
theorem lifecycle_state_guards :
    (∀ (h : Heap) (st : BotState) (beh : Nat → Option Nat), st.closeEvent = none →
        close h st beh
          = ⟨st, [], some (.componentStateConflict "Cannot close an inactive bot")⟩)
    ∧ (∀ st : BotState, st.closeEvent = none →
        join st
          = .error (.componentStateConflict "Cannot wait for an inactive bot to join"))
    ∧ (∀ (h : Heap) (st : BotState) (beh : Nat → Option Nat), st.is_alive = true →
        run h st beh
          = ⟨st, [], some (.componentStateConflict "Cannot start a bot that's already active")⟩)
    ∧ (∀ (h : Heap) (st : BotState) (beh : Nat → Option Nat), st.is_alive = true →
        start h st beh
          = ⟨st, [],
              some (.componentStateConflict "Cannot start an already active interaction server")⟩)
    ∧ (∀ (h : Heap) (st : BotState) (beh : Nat → Option Nat) (b : Bool),
        st.closeEvent = some b → st.isClosing = true →
        close h st beh = ⟨st, [.joinWait], none⟩) := by
  refine ⟨?_, ?_, ?_, ?_, ?_⟩
  · intro h st beh hn
    unfold close
    rw [hn]
  · intro st hn
    unfold join
    rw [hn]
  · intro h st beh ha
    unfold run
    rw [if_pos ha]
  · intro h st beh ha
    unfold start
    rw [if_pos ha]
  · intro h st beh b ha hcl
    unfold close
    rw [ha]
    simp [hcl]

/-- Witness for `lifecycle_state_guards` at concrete dead, alive and
mid-close states. -/
theorem lifecycle_state_guards_witness :
    (⟨none, false, 0, 1⟩ : BotState).closeEvent = none
    ∧ close ⟨[[10], [20]]⟩ ⟨none, false, 0, 1⟩ okBeh
        = ⟨⟨none, false, 0, 1⟩, [],
            some (.componentStateConflict "Cannot close an inactive bot")⟩
    ∧ join ⟨none, false, 0, 1⟩
        = .error (.componentStateConflict "Cannot wait for an inactive bot to join")
    ∧ (⟨some false, false, 0, 1⟩ : BotState).is_alive = true
    ∧ run ⟨[[10], [20]]⟩ ⟨some false, false, 0, 1⟩ okBeh
        = ⟨⟨some false, false, 0, 1⟩, [],
            some (.componentStateConflict "Cannot start a bot that's already active")⟩
    ∧ start ⟨[[10], [20]]⟩ ⟨some false, false, 0, 1⟩ okBeh
        = ⟨⟨some false, false, 0, 1⟩, [],
            some (.componentStateConflict "Cannot start an already active interaction server")⟩
    ∧ close ⟨[[10], [20]]⟩ ⟨some false, true, 0, 1⟩ okBeh
        = ⟨⟨some false, true, 0, 1⟩, [.joinWait], none⟩ :=
  ⟨rfl,
    lifecycle_state_guards.1 ⟨[[10], [20]]⟩ ⟨none, false, 0, 1⟩ okBeh rfl,
    lifecycle_state_guards.2.1 ⟨none, false, 0, 1⟩ rfl,
    rfl,
    lifecycle_state_guards.2.2.1 ⟨[[10], [20]]⟩ ⟨some false, false, 0, 1⟩ okBeh rfl,
    lifecycle_state_guards.2.2.2.1 ⟨[[10], [20]]⟩ ⟨some false, false, 0, 1⟩ okBeh rfl,
    lifecycle_state_guards.2.2.2.2 ⟨[[10], [20]]⟩ ⟨some false, true, 0, 1⟩ okBeh false
      rfl rfl⟩

/-- C10: after any successful sequence of add/remove registration
operations, the sequence returned by the `on_shutdown` / `on_startup`
property is a freshly allocated copy of the internal list, so overwriting
it with anything leaves the internal list — and hence what `close` runs at
shutdown and `start` runs at startup — unchanged. -/
theorem callback_copy_isolation (h h1 : Heap) (st : BotState) (ops : List RegOp)
    (vs ws : List Nat) (beh : Nat → Option Nat)
    (hsd : st.onShutdownRef < h.cells.length)
    (hsu : st.onStartupRef < h.cells.length)
    (hap : applyOps st h ops = some h1) :
    ((on_shutdown h1 st).1.read (on_shutdown h1 st).2 = h1.read st.onShutdownRef
      ∧ ((on_shutdown h1 st).1.write (on_shutdown h1 st).2 vs).read st.onShutdownRef
          = h1.read st.onShutdownRef
      ∧ close ((on_shutdown h1 st).1.write (on_shutdown h1 st).2 vs) st beh
          = close h1 st beh)
    ∧ ((on_startup h1 st).1.read (on_startup h1 st).2 = h1.read st.onStartupRef
      ∧ ((on_startup h1 st).1.write (on_startup h1 st).2 ws).read st.onStartupRef
          = h1.read st.onStartupRef
      ∧ start ((on_startup h1 st).1.write (on_startup h1 st).2 ws) st beh
          = start h1 st beh) := by
  have hlen := applyOps_length st ops h h1 hap
  have hsd1 : st.onShutdownRef < h1.cells.length := by omega
  have hsu1 : st.onStartupRef < h1.cells.length := by omega
  have hshut : ((on_shutdown h1 st).1.write (on_shutdown h1 st).2 vs).read st.onShutdownRef
      = h1.read st.onShutdownRef := by
    rw [on_shutdown, Heap.read_write_ne _ _ _ _ (by simp [Heap.alloc]; omega),
      Heap.read_alloc_old _ _ _ hsd1]
  have hsup : ((on_startup h1 st).1.write (on_startup h1 st).2 ws).read st.onStartupRef
      = h1.read st.onStartupRef := by
    rw [on_startup, Heap.read_write_ne _ _ _ _ (by simp [Heap.alloc]; omega),
      Heap.read_alloc_old _ _ _ hsu1]
  refine ⟨⟨?_, hshut, close_heap_congr _ _ _ _ hshut⟩,
    ⟨?_, hsup, start_heap_congr _ _ _ _ hsup⟩⟩
  · rw [on_shutdown, Heap.read_alloc_new]
  · rw [on_startup, Heap.read_alloc_new]

/-- Witness for `callback_copy_isolation`: one add, one remove and one
startup add, then the returned copies are clobbered with `[99]` / `[98]`. -/
theorem callback_copy_isolation_witness :
    (0 : Nat) < (⟨[[10], [20]]⟩ : Heap).cells.length
    ∧ (1 : Nat) < (⟨[[10], [20]]⟩ : Heap).cells.length
    ∧ applyOps ⟨some false, false, 0, 1⟩ ⟨[[10], [20]]⟩
        [.addShutdown 11, .removeShutdown 10, .addStartup 21] = some ⟨[[11], [20, 21]]⟩
    ∧ (((on_shutdown ⟨[[11], [20, 21]]⟩ ⟨some false, false, 0, 1⟩).1.read
          (on_shutdown ⟨[[11], [20, 21]]⟩ ⟨some false, false, 0, 1⟩).2
          = Heap.read ⟨[[11], [20, 21]]⟩ 0
        ∧ ((on_shutdown ⟨[[11], [20, 21]]⟩ ⟨some false, false, 0, 1⟩).1.write
            (on_shutdown ⟨[[11], [20, 21]]⟩ ⟨some false, false, 0, 1⟩).2 [99]).read 0
            = Heap.read ⟨[[11], [20, 21]]⟩ 0
        ∧ close ((on_shutdown ⟨[[11], [20, 21]]⟩ ⟨some false, false, 0, 1⟩).1.write
              (on_shutdown ⟨[[11], [20, 21]]⟩ ⟨some false, false, 0, 1⟩).2 [99])
              ⟨some false, false, 0, 1⟩ okBeh
            = close ⟨[[11], [20, 21]]⟩ ⟨some false, false, 0, 1⟩ okBeh)
      ∧ ((on_startup ⟨[[11], [20, 21]]⟩ ⟨some false, false, 0, 1⟩).1.read
          (on_startup ⟨[[11], [20, 21]]⟩ ⟨some false, false, 0, 1⟩).2
          = Heap.read ⟨[[11], [20, 21]]⟩ 1
        ∧ ((on_startup ⟨[[11], [20, 21]]⟩ ⟨some false, false, 0, 1⟩).1.write
            (on_startup ⟨[[11], [20, 21]]⟩ ⟨some false, false, 0, 1⟩).2 [98]).read 1
            = Heap.read ⟨[[11], [20, 21]]⟩ 1
        ∧ start ((on_startup ⟨[[11], [20, 21]]⟩ ⟨some false, false, 0, 1⟩).1.write
              (on_startup ⟨[[11], [20, 21]]⟩ ⟨some false, false, 0, 1⟩).2 [98])
              ⟨some false, false, 0, 1⟩ okBeh
            = start ⟨[[11], [20, 21]]⟩ ⟨some false, false, 0, 1⟩ okBeh)) :=
  ⟨by decide, by decide, by decide,
    callback_copy_isolation ⟨[[10], [20]]⟩ ⟨[[11], [20, 21]]⟩ ⟨some false, false, 0, 1⟩
      [.addShutdown 11, .removeShutdown 10, .addStartup 21] [99] [98] okBeh
      (by decide) (by decide) (by decide)⟩

/-- Witness for `delete_messages_chunking_contract` on a single message,
discharging the leftover-of-one hypothesis. -/
theorem delete_messages_chunking_contract_witness :
    [5].length % 100 = 1
    ∧ (∃ init m, deleteCalls [5] = init ++ [DeleteCall.single m])
    ∧ callsMsgs (deleteCalls [5]) = [5] :=
  ⟨by decide, (delete_messages_chunking_contract [5]).2.2.1 (by decide),
    (delete_messages_chunking_contract [5]).2.1⟩

end Hikari
